import Mathlib

/-!
Verification development for the recap aggregation engine of
`src/jellyfin_recap.py` (function `generate_jellyfin_recap`, lines 112-270).

The Python source is embedded shallowly:

* `MediaItem` / `User` mirror the dictionaries the script manipulates;
  per-item user data is the assoc list `userData : List (String × Nat)`
  mapping a user name to that user's `PlayCount` (the only field read).
* A Python `KeyError` / `IndexError` is modelled by `Option` (`none` =
  the exception escapes); the full pipeline `runRecap` is staged through
  `Except RunError` so that the phase that raises first is visible.
* `sorted(xs, key=k, reverse=True)` (CPython's stable sort, with
  `reverse=True` documented to preserve stability) is embedded as the
  structural stable descending insertion sort `sortByDesc`.
* Float arithmetic (`6e7`, minute accumulation) is modelled exactly in `ℚ`.
-/

namespace JellyfinRecap

/-- A Jellyfin user record: only `Id` and `Name` are read by the script. -/
structure User where
  id : String
  name : String
  deriving DecidableEq

/-- An audio item as the script sees it after the user-data merge loop
(lines 151-155): identifier, display name, album artist, artist list,
runtime in ticks, and the per-user `PlayCount` table `UserData`. -/
structure MediaItem where
  id : String
  name : String
  albumArtist : String
  artists : List String
  runTimeTicks : Nat
  userData : List (String × Nat)
  deriving DecidableEq

/-- Reading `item["UserData"][user]["PlayCount"]`: `none` models the
`KeyError` raised when the item has no entry for `user`. -/
def playCount (u : String) (it : MediaItem) : Option Nat :=
  it.userData.lookup u

/-- The sort key `lambda x: x["UserData"][user]["PlayCount"]` (line 171),
totalised with default 0; it is only ever used under a guard ensuring the
entry is present, where it equals the genuine play count. -/
def songKey (u : String) (x : MediaItem) : Nat :=
  (playCount u x).getD 0

/-- Insert `x` into `l` in front of the first element whose key is ≤ `k x`
(elements with strictly larger key stay in front of `x`). -/
def insertDesc {α : Type*} (k : α → Nat) (x : α) : List α → List α
  | [] => [x]
  | y :: ys => if k y ≤ k x then x :: y :: ys else y :: insertDesc k x ys

/-- Stable descending sort by the `Nat` key `k`: the embedding of
`sorted(xs, key=k, reverse=True)`.  Stability, sortedness and being a
permutation are proved below; these three properties determine the
function uniquely, so any stable descending sort (in particular
CPython's) coincides with it. -/
def sortByDesc {α : Type*} (k : α → Nat) (l : List α) : List α :=
  l.foldr (insertDesc k) []

/-- Sequencing of a Python `for` loop whose body may raise, building a
list: `none` as soon as one element raises. -/
def mapO {α β : Type*} (f : α → Option β) : List α → Option (List β)
  | [] => some []
  | a :: l =>
    match f a with
    | none => none
    | some b => (mapO f l).map (fun bs => b :: bs)

/-- Sequencing of a Python accumulation loop whose body may raise. -/
def foldO {α β : Type*} (f : β → α → Option β) (init : β) : List α → Option β
  | [] => some init
  | a :: l =>
    match f init a with
    | none => none
    | some b => foldO f b l

/-- Lines 170-171: `sorted(item_data, key=lambda x: ..., reverse=True)[:num_top_songs]`.
Python evaluates the key on every element before sorting, raising
`KeyError` if any item lacks the user's entry; hence the guard. -/
def topSongsFor (u : String) (items : List MediaItem) (numTopSongs : Nat) :
    Option (List MediaItem) :=
  if items.all (fun x => (playCount u x).isSome) then
    some ((sortByDesc (songKey u) items).take numTopSongs)
  else none

/-- Lines 180-183: one `artists[item_artist]` update.  A fresh key is
appended at the end, matching Python dict insertion order. -/
def addArtist (m : List (String × Nat)) (a : String) (p : Nat) :
    List (String × Nat) :=
  if m.any (fun kv => kv.1 = a) then
    m.map (fun kv => if kv.1 = a then (kv.1, kv.2 + p) else kv)
  else m ++ [(a, p)]

/-- Lines 179-183: the inner loop over `item["Artists"]`; the play count
is looked up afresh for every artist occurrence, so an item with an
empty artist list never touches `UserData` here. -/
def accumArtistsItem (u : String) (m : List (String × Nat)) (it : MediaItem) :
    Option (List (String × Nat)) :=
  foldO (fun m' a => (playCount u it).map (fun p => addArtist m' a p)) m it.artists

/-- Lines 177-183: building the per-artist total table for one user. -/
def accumArtists (u : String) (items : List MediaItem) :
    Option (List (String × Nat)) :=
  foldO (accumArtistsItem u) [] items

/-- Line 184: `sorted(artists.items(), key=lambda x: x[1], reverse=True)[:num_top_artists]`. -/
def topArtistsFor (u : String) (items : List MediaItem) (numTopArtists : Nat) :
    Option (List (String × Nat)) :=
  (accumArtists u items).map (fun m => (sortByDesc Prod.snd m).take numTopArtists)

/-- The exact contribution of one item to one user's minute total
(line 190): `(item["RunTimeTicks"] / 6e7) * PlayCount`, in `ℚ`. -/
def minuteContribution (u : String) (it : MediaItem) : ℚ :=
  ((it.runTimeTicks : ℚ) / 60000000) * (songKey u it : ℚ)

/-- Lines 188-190: the minute accumulation loop for one user. -/
def minutesFor (u : String) (items : List MediaItem) : Option ℚ :=
  foldO
    (fun acc it => (playCount u it).map
      (fun p : Nat => acc + ((it.runTimeTicks : ℚ) / 60000000) * (p : ℚ)))
    0 items

/-- The three per-user tables built by lines 167-190, keyed by user name. -/
structure Recaps where
  songs : List (String × List MediaItem)
  artists : List (String × List (String × Nat))
  minutes : List (String × ℚ)
  deriving DecidableEq

/-- The local variables of `generate_jellyfin_recap` live during the
aggregation phase (lines 167-190): the two input snapshots plus the three
accumulator dictionaries. -/
structure AggState where
  item_data : List MediaItem
  users : List User
  most_listened_songs : List (String × List MediaItem)
  most_listened_artists : List (String × List (String × Nat))
  minutes_listened : List (String × ℚ)
  deriving DecidableEq

/-- The aggregation phase (lines 167-190) as a transformer of the local
state: the three loops only read `item_data` / `users` and assign the
three derived dictionaries. -/
def aggregatePhase (numTopSongs numTopArtists : Nat) (s : AggState) :
    Option AggState :=
  match mapO (fun u => (topSongsFor u.name s.item_data numTopSongs).map
      (fun l => (u.name, l))) s.users with
  | none => none
  | some songs =>
    match mapO (fun u => (topArtistsFor u.name s.item_data numTopArtists).map
        (fun l => (u.name, l))) s.users with
    | none => none
    | some artists =>
      match mapO (fun u => (minutesFor u.name s.item_data).map
          (fun q => (u.name, q))) s.users with
      | none => none
      | some minutes =>
        some { s with
          most_listened_songs := songs
          most_listened_artists := artists
          minutes_listened := minutes }

/-- The aggregation result of lines 167-190 (the spec's `computeRecap`). -/
def computeRecap (items : List MediaItem) (users : List User)
    (numTopSongs numTopArtists : Nat) : Option Recaps :=
  (aggregatePhase numTopSongs numTopArtists ⟨items, users, [], [], []⟩).map
    (fun s => ⟨s.most_listened_songs, s.most_listened_artists, s.minutes_listened⟩)

/-- The asset-resolution step for one user (line 198 / line 250):
`most_listened_songs[user][0]["Id"]` — `none` models the `IndexError`
raised on an empty top-song list; the code has no fallback value. -/
def resolveTopSongImage (songs : List MediaItem) : Option String :=
  songs.head?.map MediaItem.id

/-- Line 193: `[(t["Name"], t["AlbumArtist"]) for t in most_listened_songs["maf"]]`.
`none` models the `KeyError` when no user is named "maf". -/
def debugTopSongs (songs : List (String × List MediaItem)) :
    Option (List (String × String)) :=
  (songs.lookup "maf").map (fun l => l.map (fun t => (t.name, t.albumArtist)))

/-- Lines 197-198: the image-fetch loop, one lookup of
`most_listened_songs[user][0]["Id"]` per user. -/
def fetchImages (songs : List (String × List MediaItem)) : Option (List String) :=
  mapO (fun kv => resolveTopSongImage kv.2) songs

/-- Lines 258-262: the ranked-table loop ranges over
`range(min(num_top_songs, num_top_artists))` and indexes both lists,
raising `IndexError` when either is too short. -/
def renderRows (artistl : List (String × Nat)) (songl : List MediaItem)
    (numTopSongs numTopArtists : Nat) : Option (List (String × String)) :=
  mapO
    (fun i =>
      match artistl[i]? with
      | none => none
      | some a =>
        match songl[i]? with
        | none => none
        | some s => some (a.1, s.name))
    (List.range (min numTopSongs numTopArtists))

/-- The data of one rendered HTML document (lines 200-270): the embedded
image identifier, the ranked-table rows, and the minutes figure. -/
structure RenderedDoc where
  imageId : String
  rows : List (String × String)
  minutesListened : ℚ
  deriving DecidableEq

/-- Rendering one user's document (lines 200-270). -/
def renderFor (songl : List MediaItem) (artistl : List (String × Nat))
    (mins : ℚ) (numTopSongs numTopArtists : Nat) : Option RenderedDoc :=
  match songl.head? with
  | none => none
  | some img =>
    match renderRows artistl songl numTopSongs numTopArtists with
    | none => none
    | some rows => some ⟨img.id, rows, mins⟩

/-- Which statement of `generate_jellyfin_recap` raises first. -/
inductive RunError where
  | missingStats
  | debugKey
  | imageIndex
  | renderError
  deriving DecidableEq

/-- Helper turning a possibly-raising step into a staged pipeline step. -/
def orThrow {α : Type*} (o : Option α) (e : RunError) : Except RunError α :=
  match o with
  | some x => Except.ok x
  | none => Except.error e

/-- The part of `generate_jellyfin_recap` after all fetching (lines
167-270), with each phase in source order: aggregation, the hardcoded
"maf" debug print, the image-fetch loop, the per-user render loop. -/
def runRecap (items : List MediaItem) (users : List User)
    (numTopSongs numTopArtists : Nat) :
    Except RunError (List (String × RenderedDoc)) :=
  match orThrow (computeRecap items users numTopSongs numTopArtists) .missingStats with
  | Except.error e => Except.error e
  | Except.ok r =>
    match orThrow (debugTopSongs r.songs) .debugKey with
    | Except.error e => Except.error e
    | Except.ok _ =>
      match orThrow (fetchImages r.songs) .imageIndex with
      | Except.error e => Except.error e
      | Except.ok _ =>
        orThrow
          (mapO
            (fun kv =>
              match r.artists.lookup kv.1 with
              | none => none
              | some al =>
                match r.minutes.lookup kv.1 with
                | none => none
                | some mn =>
                  (renderFor kv.2 al mn numTopSongs numTopArtists).map
                    (fun d => (kv.1, d)))
            r.songs)
          .renderError

/-- The first-encounter deduplication order of Python dict keys: the
order in which distinct artist names enter the accumulation table. -/
def firstOccurrences (l : List String) : List String :=
  l.foldl (fun acc a => if a ∈ acc then acc else acc ++ [a]) []

/-- The spec's reading of per-artist totals in claim C2: each *item*
crediting the artist contributes its full play count once. -/
def artistTotalSpec (u : String) (items : List MediaItem) (a : String) : Nat :=
  ((items.filter (fun it => decide (a ∈ it.artists))).map (songKey u)).sum

/-! Concrete test data: the calibration scenario of spec §8. -/

/-- Item `S1` of the §8 scenario: runtime `2 * 6e7` ticks, alice 3, bob 0. -/
def S1 : MediaItem :=
  ⟨"s1", "S1", "ArtistOne", ["ArtistOne"], 120000000, [("alice", 3), ("bob", 0)]⟩

/-- Item `S2` of the §8 scenario: runtime `6e7` ticks, alice 1, bob 5. -/
def S2 : MediaItem :=
  ⟨"s2", "S2", "ArtistTwo", ["ArtistTwo"], 60000000, [("alice", 1), ("bob", 5)]⟩

/-- Item `S3` of the §8 scenario: runtime `3 * 6e7` ticks, alice 0, bob 2. -/
def S3 : MediaItem :=
  ⟨"s3", "S3", "ArtistThree", ["ArtistThree"], 180000000, [("alice", 0), ("bob", 2)]⟩

/-- The §8 catalog. -/
def jellyItems : List MediaItem := [S1, S2, S3]

/-- An item crediting the same artist twice, with one play by user "u". -/
def dupArtistItem : MediaItem :=
  ⟨"d1", "Dup", "A", ["A", "A"], 60000000, [("u", 1)]⟩

/-- A single item with a play-count entry for a user named "maf". -/
def S4 : MediaItem :=
  ⟨"s4", "S4", "ArtistOne", ["ArtistOne"], 60000000, [("maf", 1)]⟩

/-! Properties of the stable descending sort. -/

theorem mem_insertDesc {α : Type*} (k : α → Nat) (x : α) (l : List α) (z : α) :
    z ∈ insertDesc k x l ↔ z = x ∨ z ∈ l := by
  induction l with
  | nil => simp [insertDesc]
  | cons y ys ih =>
    simp only [insertDesc]
    split
    · simp [List.mem_cons]
    · simp only [List.mem_cons, ih]
      tauto

theorem insertDesc_perm {α : Type*} (k : α → Nat) (x : α) (l : List α) :
    List.Perm (insertDesc k x l) (x :: l) := by
  induction l with
  | nil => exact List.Perm.refl _
  | cons y ys ih =>
    simp only [insertDesc]
    split
    · exact List.Perm.refl _
    · exact (List.Perm.cons y ih).trans (List.Perm.swap x y ys)

theorem sortByDesc_perm {α : Type*} (k : α → Nat) (l : List α) :
    List.Perm (sortByDesc k l) l := by
  induction l with
  | nil => exact List.Perm.refl _
  | cons a l ih =>
    show List.Perm (insertDesc k a (sortByDesc k l)) (a :: l)
    exact (insertDesc_perm k a _).trans (List.Perm.cons a ih)

theorem pairwise_insertDesc {α : Type*} (k : α → Nat) (x : α) (l : List α)
    (h : l.Pairwise (fun a b => k b ≤ k a)) :
    (insertDesc k x l).Pairwise (fun a b => k b ≤ k a) := by
  induction l with
  | nil => simp [insertDesc]
  | cons y ys ih =>
    simp only [insertDesc]
    split
    · rename_i hxy
      refine List.Pairwise.cons ?_ h
      intro z hz
      rcases List.mem_cons.mp hz with rfl | hz
      · exact hxy
      · exact le_trans (List.rel_of_pairwise_cons h hz) hxy
    · rename_i hxy
      refine List.Pairwise.cons ?_ (ih (List.Pairwise.of_cons h))
      intro z hz
      rcases (mem_insertDesc k x ys z).mp hz with rfl | hz
      · omega
      · exact List.rel_of_pairwise_cons h hz

theorem sortByDesc_pairwise {α : Type*} (k : α → Nat) (l : List α) :
    (sortByDesc k l).Pairwise (fun a b => k b ≤ k a) := by
  induction l with
  | nil => simp [sortByDesc]
  | cons a l ih => exact pairwise_insertDesc k a _ ih

theorem filter_insertDesc {α : Type*} (k : α → Nat) (v : Nat) (x : α) (l : List α) :
    (insertDesc k x l).filter (fun z => decide (k z = v)) =
      if k x = v then x :: l.filter (fun z => decide (k z = v))
      else l.filter (fun z => decide (k z = v)) := by
  induction l with
  | nil => by_cases h : k x = v <;> simp [insertDesc, List.filter_cons, h]
  | cons y ys ih =>
    simp only [insertDesc]
    split
    · by_cases hx : k x = v <;> simp [List.filter_cons, hx]
    · rename_i hxy
      by_cases hx : k x = v <;> by_cases hy : k y = v <;>
        simp [List.filter_cons, hx, hy, ih]
      omega

theorem sortByDesc_filter {α : Type*} (k : α → Nat) (l : List α) (v : Nat) :
    (sortByDesc k l).filter (fun z => decide (k z = v)) =
      l.filter (fun z => decide (k z = v)) := by
  induction l with
  | nil => rfl
  | cons a l ih =>
    show (insertDesc k a (sortByDesc k l)).filter _ = _
    rw [filter_insertDesc]
    by_cases h : k a = v <;> simp [h, List.filter_cons, ih]

/-! Properties of the raising-loop combinators. -/

theorem mapO_eq_none {α β : Type*} {f : α → Option β} {l : List α} {a : α}
    (ha : a ∈ l) (hf : f a = none) : mapO f l = none := by
  induction l with
  | nil => cases ha
  | cons b l ih =>
    rcases List.mem_cons.mp ha with rfl | ha
    · simp [mapO, hf]
    · simp only [mapO]
      cases hfb : f b
      · rfl
      · simp [ih ha]

theorem lookup_mapO_keyed {β : Type*} (g : String → Option β) {users : List User}
    {l : List (String × β)}
    (h : mapO (fun u => (g u.name).map (fun b => (u.name, b))) users = some l) :
    l.map Prod.fst = users.map User.name ∧
    (∀ u ∈ users, l.lookup u.name = g u.name) ∧
    ∀ kv ∈ l, g kv.1 = some kv.2 := by
  induction users generalizing l with
  | nil =>
    simp only [mapO] at h
    cases h
    simp
  | cons u us ih =>
    simp only [mapO] at h
    cases hg : g u.name with
    | none => simp [hg] at h
    | some b =>
      simp only [hg, Option.map_some'] at h
      cases hrest : mapO (fun u => (g u.name).map (fun b => (u.name, b))) us with
      | none => simp [hrest] at h
      | some l' =>
        simp only [hrest, Option.map_some', Option.some.injEq] at h
        subst h
        obtain ⟨hkeys, hlook, hent⟩ := ih hrest
        refine ⟨by simp [hkeys], ?_, ?_⟩
        · intro w hw
          rcases List.mem_cons.mp hw with rfl | hw
          · simp [List.lookup, hg]
          · by_cases hname : w.name = u.name
            · simp [List.lookup, hname, hg]
            · have hbeq : (w.name == u.name) = false := beq_eq_false_iff_ne.mpr hname
              simp [List.lookup, hbeq, hlook w hw]
        · intro kv hkv
          rcases List.mem_cons.mp hkv with rfl | hkv
          · exact hg
          · exact hent kv hkv

theorem mapO_keyed_isSome {β : Type*} (g : String → Option β) {users : List User}
    (h : ∀ u ∈ users, (g u.name).isSome) :
    ∃ l, mapO (fun u => (g u.name).map (fun b => (u.name, b))) users = some l := by
  induction users with
  | nil => exact ⟨[], rfl⟩
  | cons u us ih =>
    obtain ⟨b, hb⟩ := Option.isSome_iff_exists.mp (h u (List.mem_cons_self u us))
    obtain ⟨l, hl⟩ := ih (fun w hw => h w (List.mem_cons_of_mem u hw))
    exact ⟨(u.name, b) :: l, by simp [mapO, hb, hl]⟩

/-! Small-step laws for the raising-loop combinators. -/

theorem foldO_cons_some {α β : Type*} {f : β → α → Option β} {init b : β} {a : α}
    (l : List α) (h : f init a = some b) : foldO f init (a :: l) = foldO f b l := by
  simp only [foldO, h]

theorem foldO_cons_none {α β : Type*} {f : β → α → Option β} {init : β} {a : α}
    (l : List α) (h : f init a = none) : foldO f init (a :: l) = none := by
  simp only [foldO, h]

theorem lookup_cons_self {β : Type*} (a : String) (v : β) (m : List (String × β)) :
    ((a, v) :: m).lookup a = some v := by
  simp [List.lookup]

theorem lookup_cons_ne {β : Type*} (k a : String) (v : β) (m : List (String × β))
    (h : ¬ a = k) : ((k, v) :: m).lookup a = m.lookup a := by
  simp [List.lookup, beq_eq_false_iff_ne.mpr h]

/-! Properties of the artist accumulation table. -/

theorem lookup_map_update (m : List (String × Nat)) (b : String) (p : Nat) (a : String) :
    (m.map (fun kv => if kv.1 = b then (kv.1, kv.2 + p) else kv)).lookup a =
      (m.lookup a).map (fun v => if a = b then v + p else v) := by
  induction m with
  | nil => simp [List.lookup]
  | cons kv m ih =>
    obtain ⟨k0, v0⟩ := kv
    simp only [List.map_cons]
    by_cases hb : k0 = b
    · rw [if_pos hb]
      by_cases hk : a = k0
      · subst hk
        rw [lookup_cons_self, lookup_cons_self]
        simp [hb]
      · rw [lookup_cons_ne _ _ _ _ hk, lookup_cons_ne _ _ _ _ hk, ih]
    · rw [if_neg hb]
      by_cases hk : a = k0
      · subst hk
        rw [lookup_cons_self, lookup_cons_self]
        simp [hb]
      · rw [lookup_cons_ne _ _ _ _ hk, lookup_cons_ne _ _ _ _ hk, ih]

theorem keys_map_update (m : List (String × Nat)) (b : String) (p : Nat) :
    (m.map (fun kv => if kv.1 = b then (kv.1, kv.2 + p) else kv)).map Prod.fst =
      m.map Prod.fst := by
  induction m with
  | nil => rfl
  | cons kv m ih => by_cases hb : kv.1 = b <;> simp [hb, ih]

theorem any_key_iff (m : List (String × Nat)) (b : String) :
    m.any (fun kv => kv.1 = b) = true ↔ b ∈ m.map Prod.fst := by
  simp only [List.any_eq_true, List.mem_map, decide_eq_true_eq]

theorem lookup_eq_none_iff {β : Type*} (m : List (String × β)) (a : String) :
    m.lookup a = none ↔ a ∉ m.map Prod.fst := by
  induction m with
  | nil => simp [List.lookup]
  | cons kv m ih =>
    obtain ⟨k0, v0⟩ := kv
    by_cases h : a = k0
    · subst h
      rw [lookup_cons_self]
      simp
    · rw [lookup_cons_ne _ _ _ _ h]
      simp [ih, h]

theorem lookup_append_cases (m l2 : List (String × Nat)) (a : String) :
    (m ++ l2).lookup a =
      match m.lookup a with
      | some v => some v
      | none => l2.lookup a := by
  induction m with
  | nil => simp [List.lookup]
  | cons kv m ih =>
    obtain ⟨k0, v0⟩ := kv
    by_cases h : a = k0
    · subst h
      rw [List.cons_append, lookup_cons_self, lookup_cons_self]
    · rw [List.cons_append, lookup_cons_ne _ _ _ _ h, lookup_cons_ne _ _ _ _ h, ih]

theorem lookup_addArtist (m : List (String × Nat)) (b : String) (p : Nat) (a : String) :
    (addArtist m b p).lookup a =
      if a = b then some ((m.lookup a).getD 0 + p) else m.lookup a := by
  unfold addArtist
  split
  · rename_i hany
    rw [lookup_map_update]
    by_cases h : a = b
    · subst h
      have hmem : a ∈ m.map Prod.fst := (any_key_iff m a).mp hany
      obtain ⟨v, hv⟩ : ∃ v, m.lookup a = some v := by
        cases hl : m.lookup a
        · exact absurd ((lookup_eq_none_iff m a).mp hl) (by simpa using hmem)
        · exact ⟨_, rfl⟩
      simp [hv]
    · simp [h]
  · rename_i hany
    rw [lookup_append_cases]
    by_cases h : a = b
    · subst h
      have hnone : m.lookup a = none := (lookup_eq_none_iff m a).mpr
        (fun hmem => hany ((any_key_iff m a).mpr hmem))
      rw [hnone]
      rw [if_pos rfl, lookup_cons_self]
      simp [hnone]
    · cases hl : m.lookup a with
      | some v => simp [h]
      | none =>
        rw [if_neg h, lookup_cons_ne _ _ _ _ h]
        simp [List.lookup]

theorem keys_addArtist (m : List (String × Nat)) (b : String) (p : Nat) :
    (addArtist m b p).map Prod.fst =
      if b ∈ m.map Prod.fst then m.map Prod.fst else m.map Prod.fst ++ [b] := by
  unfold addArtist
  split
  · rename_i hany
    rw [keys_map_update]
    simp [(any_key_iff m b).mp hany]
  · rename_i hany
    have hb : b ∉ m.map Prod.fst := fun hm => hany ((any_key_iff m b).mpr hm)
    simp [hb]

theorem accumArtistsItem_eq (u : String) (it : MediaItem) (p : Nat)
    (hp : playCount u it = some p) (m : List (String × Nat)) :
    accumArtistsItem u m it =
      some (it.artists.foldl (fun m' a => addArtist m' a p) m) := by
  unfold accumArtistsItem
  generalize it.artists = as
  induction as generalizing m with
  | nil => rfl
  | cons a as ih =>
    rw [foldO_cons_some as (by rw [hp]; rfl), List.foldl_cons]
    exact ih (addArtist m a p)

theorem lookup_foldl_addArtist (p : Nat) (as : List String)
    (m : List (String × Nat)) (a : String) :
    (as.foldl (fun m' b => addArtist m' b p) m).lookup a =
      if a ∈ as ∨ (m.lookup a).isSome
      then some ((m.lookup a).getD 0 + as.count a * p) else none := by
  induction as generalizing m with
  | nil =>
    cases h : m.lookup a <;> simp [h]
  | cons b as ih =>
    simp only [List.foldl_cons]
    rw [ih, lookup_addArtist]
    by_cases hab : a = b
    · subst hab
      simp only [if_pos rfl, Option.isSome_some, or_true, Option.getD_some,
        List.mem_cons, true_or, if_true]
      rw [List.count_cons_self]
      congr 1
      ring
    · rw [if_neg hab]
      have hba : ¬ b = a := fun hc => hab hc.symm
      have hcount : (b :: as).count a = as.count a := by
        rw [List.count_cons]
        simp [hab, hba]
      rw [hcount]
      have hmem : a ∈ b :: as ↔ a ∈ as := by simp [List.mem_cons, hab]
      by_cases hc : a ∈ as ∨ (m.lookup a).isSome = true
      · rw [if_pos hc, if_pos (by rw [hmem]; exact hc)]
      · rw [if_neg hc, if_neg (by rw [hmem]; exact hc)]

theorem keys_foldl_addArtist (p : Nat) (as : List String) (m : List (String × Nat)) :
    (as.foldl (fun m' b => addArtist m' b p) m).map Prod.fst =
      as.foldl (fun acc b => if b ∈ acc then acc else acc ++ [b]) (m.map Prod.fst) := by
  induction as generalizing m with
  | nil => rfl
  | cons b as ih =>
    simp only [List.foldl_cons]
    rw [ih, keys_addArtist]

theorem foldO_accumArtists_isSome (u : String) (items : List MediaItem)
    (h : ∀ it ∈ items, (playCount u it).isSome) (m : List (String × Nat)) :
    ∃ m', foldO (accumArtistsItem u) m items = some m' := by
  induction items generalizing m with
  | nil => exact ⟨m, rfl⟩
  | cons it its ih =>
    obtain ⟨p, hp⟩ := Option.isSome_iff_exists.mp (h it (List.mem_cons_self it its))
    obtain ⟨m', hm'⟩ := ih (fun x hx => h x (List.mem_cons_of_mem _ hx))
      (it.artists.foldl (fun m' b => addArtist m' b p) m)
    exact ⟨m', by rw [foldO_cons_some its (accumArtistsItem_eq u it p hp m)]; exact hm'⟩

theorem lookup_foldO_accumArtists (u : String) (items : List MediaItem)
    (h : ∀ it ∈ items, (playCount u it).isSome) (m m' : List (String × Nat))
    (hm' : foldO (accumArtistsItem u) m items = some m') (a : String) :
    m'.lookup a =
      if (∃ it ∈ items, a ∈ it.artists) ∨ (m.lookup a).isSome
      then some ((m.lookup a).getD 0 +
          (items.map (fun it => it.artists.count a * songKey u it)).sum)
      else none := by
  induction items generalizing m with
  | nil =>
    cases hm'
    cases hl : m'.lookup a <;> simp [hl]
  | cons it its ih =>
    obtain ⟨p, hp⟩ := Option.isSome_iff_exists.mp (h it (List.mem_cons_self it its))
    have hsk : songKey u it = p := by simp [songKey, hp]
    rw [foldO_cons_some its (accumArtistsItem_eq u it p hp m)] at hm'
    rw [ih (fun x hx => h x (List.mem_cons_of_mem _ hx)) _ hm',
      lookup_foldl_addArtist]
    by_cases hbase : a ∈ it.artists ∨ (m.lookup a).isSome = true
    · rw [if_pos hbase]
      have hcond : (∃ x ∈ it :: its, a ∈ x.artists) ∨ (m.lookup a).isSome = true := by
        rcases hbase with hb | hb
        · exact Or.inl ⟨it, List.mem_cons_self it its, hb⟩
        · exact Or.inr hb
      rw [if_pos (Or.inr (Option.isSome_some)), if_pos hcond]
      simp only [List.map_cons, List.sum_cons, Option.getD_some, hsk]
      congr 1
      ring
    · push_neg at hbase
      obtain ⟨hnotmem, hnone⟩ := hbase
      have hcnt : it.artists.count a = 0 := List.count_eq_zero.mpr hnotmem
      have hnone' : m.lookup a = none := by
        cases hl : m.lookup a with
        | none => rfl
        | some v => exact absurd (by rw [hl]; rfl) hnone
      rw [if_neg (by rw [hnone']; simp [hnotmem] :
        ¬(a ∈ it.artists ∨ (m.lookup a).isSome = true))]
      have hsplit : ((∃ x ∈ it :: its, a ∈ x.artists) ∨ (m.lookup a).isSome = true) ↔
          (∃ x ∈ its, a ∈ x.artists) := by
        rw [hnone']
        simp only [Option.isSome_none, Bool.false_eq_true, or_false, List.mem_cons]
        constructor
        · rintro ⟨x, hx | hx, hax⟩
          · exact absurd hax (by rw [hx] at *; exact hnotmem)
          · exact ⟨x, hx, hax⟩
        · rintro ⟨x, hx, hax⟩
          exact ⟨x, Or.inr hx, hax⟩
      by_cases hits : ∃ x ∈ its, a ∈ x.artists
      · rw [if_pos (hsplit.mpr hits), if_pos (Or.inl hits)]
        simp [hnone', hcnt, hsk]
      · have hlneg : ¬((∃ x ∈ its, a ∈ x.artists) ∨
            (none : Option Nat).isSome = true) := by simp [hits]
        rw [if_neg (fun hc => hits (hsplit.mp hc)), if_neg hlneg]

theorem keys_foldO_accumArtists (u : String) (items : List MediaItem)
    (h : ∀ it ∈ items, (playCount u it).isSome) (m m' : List (String × Nat))
    (hm' : foldO (accumArtistsItem u) m items = some m') :
    m'.map Prod.fst =
      (items.flatMap (fun it => it.artists)).foldl
        (fun acc b => if b ∈ acc then acc else acc ++ [b]) (m.map Prod.fst) := by
  induction items generalizing m with
  | nil =>
    cases hm'
    rfl
  | cons it its ih =>
    obtain ⟨p, hp⟩ := Option.isSome_iff_exists.mp (h it (List.mem_cons_self it its))
    rw [foldO_cons_some its (accumArtistsItem_eq u it p hp m)] at hm'
    rw [ih (fun x hx => h x (List.mem_cons_of_mem _ hx)) _ hm',
      keys_foldl_addArtist]
    simp [List.foldl_append]

theorem accumArtists_spec (u : String) (items : List MediaItem)
    (h : ∀ it ∈ items, (playCount u it).isSome) :
    ∃ m, accumArtists u items = some m ∧
      (∀ a, m.lookup a =
        if ∃ it ∈ items, a ∈ it.artists
        then some ((items.map (fun it => it.artists.count a * songKey u it)).sum)
        else none) ∧
      m.map Prod.fst = firstOccurrences (items.flatMap (fun it => it.artists)) := by
  obtain ⟨m, hm⟩ := foldO_accumArtists_isSome u items h []
  refine ⟨m, hm, ?_, ?_⟩
  · intro a
    rw [lookup_foldO_accumArtists u items h [] m hm a]
    simp [List.lookup]
  · rw [keys_foldO_accumArtists u items h [] m hm]
    rfl

/-! Success of each aggregation phase when every statistics entry is present. -/

theorem topSongsFor_eq (u : String) (items : List MediaItem) (n : Nat)
    (h : ∀ it ∈ items, (playCount u it).isSome) :
    topSongsFor u items n = some ((sortByDesc (songKey u) items).take n) := by
  unfold topSongsFor
  rw [if_pos]
  rw [List.all_eq_true]
  exact h

theorem topArtistsFor_eq (u : String) (items : List MediaItem) (n : Nat)
    {m : List (String × Nat)} (hm : accumArtists u items = some m) :
    topArtistsFor u items n = some ((sortByDesc Prod.snd m).take n) := by
  unfold topArtistsFor
  rw [hm]
  rfl

theorem minutesFold (u : String) (items : List MediaItem)
    (h : ∀ it ∈ items, (playCount u it).isSome) (acc : ℚ) :
    foldO (fun acc it => (playCount u it).map
        (fun p : Nat => acc + ((it.runTimeTicks : ℚ) / 60000000) * (p : ℚ))) acc items =
      some (acc + (items.map (minuteContribution u)).sum) := by
  induction items generalizing acc with
  | nil => simp [foldO]
  | cons it its ih =>
    obtain ⟨p, hp⟩ := Option.isSome_iff_exists.mp (h it (List.mem_cons_self it its))
    have hsk : songKey u it = p := by simp [songKey, hp]
    rw [foldO_cons_some its (by rw [hp]; rfl)]
    rw [ih (fun x hx => h x (List.mem_cons_of_mem _ hx))]
    simp only [List.map_cons, List.sum_cons, minuteContribution, hsk]
    congr 1
    ring

theorem minutesFor_eq (u : String) (items : List MediaItem)
    (h : ∀ it ∈ items, (playCount u it).isSome) :
    minutesFor u items = some ((items.map (minuteContribution u)).sum) := by
  unfold minutesFor
  rw [minutesFold u items h 0, zero_add]

theorem computeRecap_some (items : List MediaItem) (users : List User)
    (nS nA : Nat)
    (h : ∀ u ∈ users, ∀ it ∈ items, (playCount u.name it).isSome) :
    ∃ r, computeRecap items users nS nA = some r ∧
      r.songs.map Prod.fst = users.map User.name ∧
      (∀ kv ∈ r.songs, topSongsFor kv.1 items nS = some kv.2) ∧
      ∀ u ∈ users,
        r.songs.lookup u.name = topSongsFor u.name items nS ∧
        r.artists.lookup u.name = topArtistsFor u.name items nA ∧
        r.minutes.lookup u.name = minutesFor u.name items := by
  have hs : ∀ u ∈ users, (topSongsFor u.name items nS).isSome := by
    intro u hu
    rw [topSongsFor_eq u.name items nS (h u hu)]
    rfl
  have ha : ∀ u ∈ users, (topArtistsFor u.name items nA).isSome := by
    intro u hu
    obtain ⟨m, hm, -, -⟩ := accumArtists_spec u.name items (h u hu)
    rw [topArtistsFor_eq u.name items nA hm]
    rfl
  have hq : ∀ u ∈ users, (minutesFor u.name items).isSome := by
    intro u hu
    rw [minutesFor_eq u.name items (h u hu)]
    rfl
  obtain ⟨ls, hls⟩ := mapO_keyed_isSome (fun n => topSongsFor n items nS) hs
  obtain ⟨la, hla⟩ := mapO_keyed_isSome (fun n => topArtistsFor n items nA) ha
  obtain ⟨lq, hlq⟩ := mapO_keyed_isSome (fun n => minutesFor n items) hq
  refine ⟨⟨ls, la, lq⟩, ?_, ?_, ?_, ?_⟩
  · unfold computeRecap aggregatePhase
    simp only [hls, hla, hlq]
    rfl
  · exact (lookup_mapO_keyed (fun n => topSongsFor n items nS) hls).1
  · exact (lookup_mapO_keyed (fun n => topSongsFor n items nS) hls).2.2
  · intro u hu
    exact ⟨(lookup_mapO_keyed (fun n => topSongsFor n items nS) hls).2.1 u hu,
      (lookup_mapO_keyed (fun n => topArtistsFor n items nA) hla).2.1 u hu,
      (lookup_mapO_keyed (fun n => minutesFor n items) hlq).2.1 u hu⟩


/-! Further structural facts used by the claim theorems. -/

theorem mem_foldl_occ (l : List String) (acc : List String) (a : String) :
    a ∈ l.foldl (fun acc b => if b ∈ acc then acc else acc ++ [b]) acc ↔
      a ∈ acc ∨ a ∈ l := by
  induction l generalizing acc with
  | nil => simp
  | cons b l ih =>
    simp only [List.foldl_cons]
    rw [ih]
    by_cases hb : b ∈ acc
    · rw [if_pos hb]
      simp only [List.mem_cons]
      constructor
      · rintro (h | h)
        · exact Or.inl h
        · exact Or.inr (Or.inr h)
      · rintro (h | h | h)
        · exact Or.inl h
        · exact Or.inl (h ▸ hb)
        · exact Or.inr h
    · rw [if_neg hb]
      simp only [List.mem_append, List.mem_singleton, List.mem_cons]
      tauto

theorem mem_firstOccurrences (l : List String) (a : String) :
    a ∈ firstOccurrences l ↔ a ∈ l := by
  unfold firstOccurrences
  rw [mem_foldl_occ]
  simp

theorem length_sortByDesc {α : Type*} (k : α → Nat) (l : List α) :
    (sortByDesc k l).length = l.length :=
  (sortByDesc_perm k l).length_eq

theorem mapO_some_get {α β : Type*} {f : α → Option β} {l : List α} {l' : List β}
    (h : mapO f l = some l') :
    l'.length = l.length ∧ ∀ (i : Nat) (a : α), l[i]? = some a → l'[i]? = f a := by
  induction l generalizing l' with
  | nil =>
    simp only [mapO] at h
    cases h
    refine ⟨rfl, ?_⟩
    intro i a ha
    simp at ha
  | cons x l ih =>
    simp only [mapO] at h
    cases hx : f x with
    | none =>
      rw [hx] at h
      exact Option.noConfusion h
    | some b =>
      rw [hx] at h
      cases hrest : mapO f l with
      | none =>
        rw [hrest] at h
        exact Option.noConfusion h
      | some bs =>
        rw [hrest] at h
        simp only [Option.map_some', Option.some.injEq] at h
        subst h
        obtain ⟨hlen, hget⟩ := ih hrest
        refine ⟨by simp [hlen], ?_⟩
        intro i a ha
        cases i with
        | zero =>
          simp only [List.getElem?_cons_zero, Option.some.injEq] at ha
          subst ha
          simpa using hx.symm
        | succ j =>
          simp only [List.getElem?_cons_succ] at ha ⊢
          exact hget j a ha

theorem mapO_isSome_of_forall {α β : Type*} {f : α → Option β} {l : List α}
    (h : ∀ a ∈ l, (f a).isSome) : ∃ l', mapO f l = some l' := by
  induction l with
  | nil => exact ⟨[], rfl⟩
  | cons x l ih =>
    obtain ⟨b, hb⟩ := Option.isSome_iff_exists.mp (h x (List.mem_cons_self x l))
    obtain ⟨bs, hbs⟩ := ih (fun a ha => h a (List.mem_cons_of_mem _ ha))
    exact ⟨b :: bs, by simp [mapO, hb, hbs]⟩

theorem mapO_forall_isSome {α β : Type*} {f : α → Option β} {l : List α} {l' : List β}
    (h : mapO f l = some l') : ∀ a ∈ l, (f a).isSome := by
  intro a ha
  cases hf : f a with
  | some b => rfl
  | none =>
    rw [mapO_eq_none ha hf] at h
    exact Option.noConfusion h

theorem renderRows_some (artistl : List (String × Nat)) (songl : List MediaItem)
    (nS nA : Nat) (hA : min nS nA ≤ artistl.length) (hS : min nS nA ≤ songl.length) :
    ∃ rows, renderRows artistl songl nS nA = some rows ∧
      rows.length = min nS nA ∧
      ∀ i a s, i < min nS nA → artistl[i]? = some a → songl[i]? = some s →
        rows[i]? = some (a.1, s.name) := by
  have hall : ∀ i ∈ List.range (min nS nA),
      ((fun i : Nat =>
        match artistl[i]? with
        | none => none
        | some a =>
          match songl[i]? with
          | none => none
          | some s => some (a.1, s.name)) i).isSome := by
    intro i hi
    have hi' : i < min nS nA := List.mem_range.mp hi
    have hia : i < artistl.length := lt_of_lt_of_le hi' hA
    have his : i < songl.length := lt_of_lt_of_le hi' hS
    have ha : artistl[i]? = some artistl[i] := List.getElem?_eq_getElem hia
    have hs : songl[i]? = some songl[i] := List.getElem?_eq_getElem his
    simp [ha, hs]
  obtain ⟨rows, hrows⟩ := mapO_isSome_of_forall hall
  obtain ⟨hlen, hget⟩ := mapO_some_get hrows
  refine ⟨rows, hrows, by simpa using hlen, ?_⟩
  intro i a s hi ha hs
  have hr : (List.range (min nS nA))[i]? = some i := by
    simp [hi]
  rw [hget i i hr]
  simp [ha, hs]

theorem renderRows_none_of_short (artistl : List (String × Nat)) (songl : List MediaItem)
    (nS nA : Nat)
    (h : artistl.length < min nS nA ∨ songl.length < min nS nA) :
    renderRows artistl songl nS nA = none := by
  rcases h with h | h
  · apply mapO_eq_none (List.mem_range.mpr h)
    have ha : artistl[artistl.length]? = none := by simp
    simp [ha]
  · apply mapO_eq_none (List.mem_range.mpr h)
    have hs : songl[songl.length]? = none := by simp
    cases ha : artistl[songl.length]? <;> simp [ha, hs]

theorem sum_contributions_zero_filter (u : String) (items : List MediaItem) :
    ((items.filter (fun it => decide (0 < songKey u it))).map (minuteContribution u)).sum =
      (items.map (minuteContribution u)).sum := by
  induction items with
  | nil => rfl
  | cons it its ih =>
    by_cases h0 : 0 < songKey u it
    · rw [List.filter_cons, if_pos (by simpa using h0)]
      simp only [List.map_cons, List.sum_cons]
      rw [ih]
    · rw [List.filter_cons, if_neg (by simpa using h0)]
      simp only [List.map_cons, List.sum_cons]
      rw [ih]
      have hz : songKey u it = 0 := by omega
      simp [minuteContribution, hz]

/-! Stage-by-stage behaviour of the pipeline. -/

theorem runRecap_error_debug (items : List MediaItem) (users : List User)
    (nS nA : Nat) {r : Recaps}
    (hr : computeRecap items users nS nA = some r)
    (hdbg : debugTopSongs r.songs = none) :
    runRecap items users nS nA = Except.error RunError.debugKey := by
  unfold runRecap
  rw [hr]
  simp only [orThrow]
  rw [hdbg]

theorem runRecap_error_image (items : List MediaItem) (users : List User)
    (nS nA : Nat) {r : Recaps} {d : List (String × String)}
    (hr : computeRecap items users nS nA = some r)
    (hdbg : debugTopSongs r.songs = some d)
    (himg : fetchImages r.songs = none) :
    runRecap items users nS nA = Except.error RunError.imageIndex := by
  unfold runRecap
  rw [hr]
  simp only [orThrow]
  rw [hdbg]
  simp only [orThrow]
  rw [himg]

theorem debugTopSongs_eq_none {songs : List (String × List MediaItem)}
    (h : "maf" ∉ songs.map Prod.fst) : debugTopSongs songs = none := by
  unfold debugTopSongs
  rw [(lookup_eq_none_iff songs "maf").mpr h]
  rfl

theorem topSongsFor_isSome_playCounts {u : String} {items : List MediaItem} {n : Nat}
    (h : (topSongsFor u items n).isSome) : ∀ it ∈ items, (playCount u it).isSome := by
  intro it hit
  by_contra hc
  unfold topSongsFor at h
  rw [if_neg] at h
  · simp at h
  · intro hall
    rw [List.all_eq_true] at hall
    exact hc (hall it hit)

theorem computeRecap_singleton (items : List MediaItem) (u : User) (nS nA : Nat)
    (h : ∀ it ∈ items, (playCount u.name it).isSome) :
    ∃ r, computeRecap items [u] nS nA = some r ∧
      r.songs.lookup u.name = topSongsFor u.name items nS ∧
      r.artists.lookup u.name = topArtistsFor u.name items nA ∧
      r.minutes.lookup u.name = minutesFor u.name items := by
  have h' : ∀ w ∈ [u], ∀ it ∈ items, (playCount w.name it).isSome := by
    intro w hw it hit
    rcases List.mem_singleton.mp hw with rfl
    exact h it hit
  obtain ⟨r, hr, -, -, hlook⟩ := computeRecap_some items [u] nS nA h'
  obtain ⟨h1, h2, h3⟩ := hlook u (List.mem_singleton_self u)
  exact ⟨r, hr, h1, h2, h3⟩

/-! ## Claim theorems -/

/-- C1: for every user and every item sequence in which each item has a
play-count entry for that user, the top-song sequence equals the input item
sequence sorted in non-increasing order of that user's play count by a
stable sort — the sorted sequence is a permutation of the input, pairwise
non-increasing on the play count (which agrees with the stored entry), and
items with equal play count keep their relative input order (the
subsequence at every count value is unchanged) — truncated to the first
`numTopSongs` elements. -/
theorem topSongs_is_stable_descending_sort (u : String) (items : List MediaItem)
    (numTopSongs : Nat) (h : ∀ it ∈ items, (playCount u it).isSome) :
    topSongsFor u items numTopSongs =
        some ((sortByDesc (songKey u) items).take numTopSongs) ∧
    (∀ it ∈ items, playCount u it = some (songKey u it)) ∧
    List.Perm (sortByDesc (songKey u) items) items ∧
    (sortByDesc (songKey u) items).Pairwise
      (fun a b => songKey u b ≤ songKey u a) ∧
    ∀ v : Nat,
      (sortByDesc (songKey u) items).filter (fun x => decide (songKey u x = v)) =
        items.filter (fun x => decide (songKey u x = v)) := by
  refine ⟨topSongsFor_eq u items numTopSongs h, ?_, sortByDesc_perm _ _,
    sortByDesc_pairwise _ _, sortByDesc_filter _ _⟩
  intro it hit
  obtain ⟨p, hp⟩ := Option.isSome_iff_exists.mp (h it hit)
  simp [songKey, hp]

/-- Witness for C1 at the §8 scenario, user alice, `numTopSongs = 2`. -/
theorem topSongs_is_stable_descending_sort_witness :
    (∀ it ∈ jellyItems, (playCount "alice" it).isSome) ∧
    (topSongsFor "alice" jellyItems 2 =
        some ((sortByDesc (songKey "alice") jellyItems).take 2) ∧
      (∀ it ∈ jellyItems, playCount "alice" it = some (songKey "alice" it)) ∧
      List.Perm (sortByDesc (songKey "alice") jellyItems) jellyItems ∧
      (sortByDesc (songKey "alice") jellyItems).Pairwise
        (fun a b => songKey "alice" b ≤ songKey "alice" a) ∧
      ∀ v : Nat,
        (sortByDesc (songKey "alice") jellyItems).filter
            (fun x => decide (songKey "alice" x = v)) =
          jellyItems.filter (fun x => decide (songKey "alice" x = v))) :=
  ⟨by decide, topSongs_is_stable_descending_sort "alice" jellyItems 2 (by decide)⟩

/-- C2 as stated is false on the code: the accumulation loop adds the play
count once per occurrence of the artist name in the item's artist list, so
an item crediting `A` twice with one play gives `A` a total of 2, while the
claim's per-item reading (`artistTotalSpec`) gives 1. -/
theorem artist_totals_counterexample :
    accumArtists "u" [dupArtistItem] = some [("A", 2)] ∧
    artistTotalSpec "u" [dupArtistItem] "A" = 1 ∧
    [("A", 2)].lookup "A" ≠ some (artistTotalSpec "u" [dupArtistItem] "A") := by
  refine ⟨by decide, by decide, by decide⟩

/-- C2 amended: the per-artist total maps each artist name to the sum over
items of (number of occurrences of the name in the item's artist list) ×
(that user's play count) — an item with multiple distinct artists still
contributes its full play count to each of them, but a name listed twice in
one item receives the count twice; names absent from every item have no
entry; keys appear in first-encountered order; the top-artist sequence is
these pairs stably sorted non-increasing by total and truncated to
`numTopArtists`. -/
theorem topArtists_totals_and_order (u : String) (items : List MediaItem)
    (numTopArtists : Nat) (h : ∀ it ∈ items, (playCount u it).isSome) :
    ∃ m, accumArtists u items = some m ∧
      (∀ a : String, m.lookup a =
        if ∃ it ∈ items, a ∈ it.artists
        then some ((items.map (fun it => it.artists.count a * songKey u it)).sum)
        else none) ∧
      (∀ it ∈ items, playCount u it = some (songKey u it)) ∧
      m.map Prod.fst = firstOccurrences (items.flatMap (fun it => it.artists)) ∧
      topArtistsFor u items numTopArtists =
        some ((sortByDesc Prod.snd m).take numTopArtists) ∧
      List.Perm (sortByDesc Prod.snd m) m ∧
      (sortByDesc Prod.snd m).Pairwise (fun x y => y.2 ≤ x.2) ∧
      ∀ v : Nat, (sortByDesc Prod.snd m).filter (fun x => decide (x.2 = v)) =
        m.filter (fun x => decide (x.2 = v)) := by
  obtain ⟨m, hm, hlook, hkeys⟩ := accumArtists_spec u items h
  refine ⟨m, hm, hlook, ?_, hkeys, topArtistsFor_eq u items numTopArtists hm,
    sortByDesc_perm _ _, sortByDesc_pairwise _ _, sortByDesc_filter _ _⟩
  intro it hit
  obtain ⟨p, hp⟩ := Option.isSome_iff_exists.mp (h it hit)
  simp [songKey, hp]

/-- Witness for the amended C2 at the duplicate-artist item. -/
theorem topArtists_totals_and_order_witness :
    (∀ it ∈ [dupArtistItem], (playCount "u" it).isSome) ∧
    (∃ m, accumArtists "u" [dupArtistItem] = some m ∧
      (∀ a : String, m.lookup a =
        if ∃ it ∈ [dupArtistItem], a ∈ it.artists
        then some (([dupArtistItem].map
            (fun it => it.artists.count a * songKey "u" it)).sum)
        else none) ∧
      (∀ it ∈ [dupArtistItem], playCount "u" it = some (songKey "u" it)) ∧
      m.map Prod.fst =
        firstOccurrences ([dupArtistItem].flatMap (fun it => it.artists)) ∧
      topArtistsFor "u" [dupArtistItem] 1 =
        some ((sortByDesc Prod.snd m).take 1) ∧
      List.Perm (sortByDesc Prod.snd m) m ∧
      (sortByDesc Prod.snd m).Pairwise (fun x y => y.2 ≤ x.2) ∧
      ∀ v : Nat, (sortByDesc Prod.snd m).filter (fun x => decide (x.2 = v)) =
        m.filter (fun x => decide (x.2 = v))) :=
  ⟨by decide, topArtists_totals_and_order "u" [dupArtistItem] 1 (by decide)⟩

/-- C3: for every user whose play-count entries are all present, the minute
total is `some` of the exact sum over all items of
`(runtime_ticks / 6e7) × play_count` (modelled in `ℚ`), and the items with
play count zero contribute nothing: restricting the sum to items with
positive play count leaves it unchanged. -/
theorem minutes_formula (u : String) (items : List MediaItem)
    (h : ∀ it ∈ items, (playCount u it).isSome) :
    minutesFor u items = some ((items.map (minuteContribution u)).sum) ∧
    ((items.filter (fun it => decide (0 < songKey u it))).map
        (minuteContribution u)).sum = (items.map (minuteContribution u)).sum :=
  ⟨minutesFor_eq u items h, sum_contributions_zero_filter u items⟩

/-- Witness for C3 at the §8 scenario, user alice. -/
theorem minutes_formula_witness :
    (∀ it ∈ jellyItems, (playCount "alice" it).isSome) ∧
    (minutesFor "alice" jellyItems =
        some ((jellyItems.map (minuteContribution "alice")).sum) ∧
      ((jellyItems.filter (fun it => decide (0 < songKey "alice" it))).map
          (minuteContribution "alice")).sum =
        (jellyItems.map (minuteContribution "alice")).sum) :=
  ⟨by decide, minutes_formula "alice" jellyItems (by decide)⟩

/-- C4: if any item lacks a statistics entry for a user present in the user
list, the aggregation fails (the lookup failure propagates and the result is
`none`) instead of substituting a zero play count. -/
theorem missing_stats_aggregation_fails (items : List MediaItem) (users : List User)
    (nS nA : Nat) (u : User) (hu : u ∈ users) (it : MediaItem) (hit : it ∈ items)
    (hmiss : playCount u.name it = none) :
    computeRecap items users nS nA = none := by
  have hsongs : topSongsFor u.name items nS = none := by
    unfold topSongsFor
    rw [if_neg]
    intro hall
    rw [List.all_eq_true] at hall
    have hs := hall it hit
    rw [hmiss] at hs
    simp at hs
  have hmap : mapO (fun w => (topSongsFor w.name items nS).map
      (fun l => (w.name, l))) users = none :=
    mapO_eq_none hu (by rw [hsongs]; rfl)
  unfold computeRecap aggregatePhase
  simp only [hmap]
  rfl

/-- Witness for C4: item `S1` has no entry for user carol. -/
theorem missing_stats_aggregation_fails_witness :
    ((⟨"u9", "carol"⟩ : User) ∈ [(⟨"u9", "carol"⟩ : User)]) ∧
    S1 ∈ [S1] ∧ playCount "carol" S1 = none ∧
    computeRecap [S1] [⟨"u9", "carol"⟩] 5 5 = none :=
  ⟨List.mem_singleton_self _, List.mem_singleton_self _, by decide,
    missing_stats_aggregation_fails [S1] [⟨"u9", "carol"⟩] 5 5
      ⟨"u9", "carol"⟩ (List.mem_singleton_self _) S1 (List.mem_singleton_self _)
      (by decide)⟩

/-- C5 as stated is false on the code: with an empty catalog the aggregation
does return empty sequences and zero minutes, but the asset-resolution step
(`most_listened_songs[user][0]["Id"]`) raises an index error — it returns no
"no image" fallback — and the run aborts before rendering anything. -/
theorem empty_catalog_counterexample :
    computeRecap [] [⟨"u1", "maf"⟩] 5 5 =
      some ⟨[("maf", [])], [("maf", [])], [("maf", 0)]⟩ ∧
    resolveTopSongImage [] = none ∧
    runRecap [] [⟨"u1", "maf"⟩] 5 5 = Except.error RunError.imageIndex :=
  ⟨rfl, rfl, rfl⟩

/-- C5 amended: for an empty catalog, aggregation yields for every user
empty top-song and top-artist sequences and zero minutes; but the run then
fails with an exception (at the "maf" debug lookup or at the image-fetch
indexing of the empty top-song list) before any document is produced —
there is no "no image" fallback and rendering is never reached. -/
theorem empty_catalog_amended (users : List User) (nS nA : Nat) :
    ∃ r, computeRecap [] users nS nA = some r ∧
      (∀ u ∈ users, r.songs.lookup u.name = some [] ∧
        r.artists.lookup u.name = some [] ∧
        r.minutes.lookup u.name = some 0) ∧
      ∃ e, runRecap [] users nS nA = Except.error e := by
  have hnostats : ∀ u ∈ users, ∀ it ∈ ([] : List MediaItem),
      (playCount u.name it).isSome :=
    fun u hu it hit => absurd hit (List.not_mem_nil it)
  obtain ⟨r, hr, hkeys, hent, hlook⟩ := computeRecap_some [] users nS nA hnostats
  have hempty : ∀ w : String, topSongsFor w [] nS = some [] := by
    intro w
    rw [topSongsFor_eq w [] nS (fun it hit => absurd hit (List.not_mem_nil it))]
    simp [sortByDesc]
  refine ⟨r, hr, ?_, ?_⟩
  · intro u hu
    obtain ⟨h1, h2, h3⟩ := hlook u hu
    refine ⟨?_, ?_, ?_⟩
    · rw [h1, hempty u.name]
    · rw [h2]
      simp [topArtistsFor, accumArtists, foldO, sortByDesc]
    · rw [h3]
      rfl
  · cases hdbg : debugTopSongs r.songs with
    | none => exact ⟨RunError.debugKey, runRecap_error_debug [] users nS nA hr hdbg⟩
    | some d =>
      have himg : fetchImages r.songs = none := by
        cases hsongs : r.songs with
        | nil =>
          rw [hsongs] at hdbg
          exact absurd hdbg (by simp [debugTopSongs, List.lookup])
        | cons kv rest =>
          have hkv : kv.2 = ([] : List MediaItem) := by
            have he := hent kv (by rw [hsongs]; exact List.mem_cons_self kv rest)
            rw [hempty kv.1] at he
            exact (Option.some.inj he).symm
          unfold fetchImages
          apply mapO_eq_none (List.mem_cons_self kv rest)
          rw [show resolveTopSongImage kv.2 = none by rw [hkv]; rfl]
      exact ⟨RunError.imageIndex, runRecap_error_image [] users nS nA hr hdbg himg⟩

/-- C6 as stated is false on the code: the ranked-table loop runs over
`range(min(num_top_songs, num_top_artists))` regardless of the actual list
lengths, so when a user's ranked lists are shorter than
`min(topSongs, topArtists)` rendering raises an index error instead of
bounding the table by the actual length: with one artist, one song and
`topSongs = topArtists = 2` the row loop, the per-user render, and the whole
run all fail. -/
theorem render_short_list_counterexample :
    renderRows [("ArtistOne", 3)] [S1] 2 2 = none ∧
    renderFor [S1] [("ArtistOne", 3)] 0 2 2 = none ∧
    runRecap [S4] [⟨"u1", "maf"⟩] 2 2 = Except.error RunError.renderError :=
  ⟨rfl, rfl, rfl⟩

/-- C6 amended: the rendered table has exactly one row for each index in
`[0, min(topSongs, topArtists))`, pairing the i-th ranked artist with the
i-th ranked song, whenever both ranked lists have at least
`min(topSongs, topArtists)` elements; when either list is shorter than that
bound, rendering fails with an index lookup error (`none`) rather than
truncating to the actual list length. -/
theorem render_table_min_rows (artistl : List (String × Nat)) (songl : List MediaItem)
    (numTopSongs numTopArtists : Nat) :
    (min numTopSongs numTopArtists ≤ artistl.length →
      min numTopSongs numTopArtists ≤ songl.length →
      ∃ rows, renderRows artistl songl numTopSongs numTopArtists = some rows ∧
        rows.length = min numTopSongs numTopArtists ∧
        ∀ (i : Nat) (a : String × Nat) (s : MediaItem),
          i < min numTopSongs numTopArtists →
          artistl[i]? = some a → songl[i]? = some s →
          rows[i]? = some (a.1, s.name)) ∧
    ((artistl.length < min numTopSongs numTopArtists ∨
        songl.length < min numTopSongs numTopArtists) →
      renderRows artistl songl numTopSongs numTopArtists = none) :=
  ⟨fun hA hS => renderRows_some artistl songl numTopSongs numTopArtists hA hS,
   fun hshort => renderRows_none_of_short artistl songl numTopSongs numTopArtists hshort⟩

/-- Witness for the amended C6: both lists long enough for `min 2 2` rows. -/
theorem render_table_min_rows_witness :
    ∃ rows,
      renderRows [("ArtistOne", 3), ("ArtistTwo", 1)] [S1, S2] 2 2 = some rows ∧
      rows.length = min 2 2 ∧
      ∀ (i : Nat) (a : String × Nat) (s : MediaItem), i < min 2 2 →
        [("ArtistOne", 3), ("ArtistTwo", 1)][i]? = some a →
        [S1, S2][i]? = some s →
        rows[i]? = some (a.1, s.name) :=
  (render_table_min_rows [("ArtistOne", 3), ("ArtistTwo", 1)] [S1, S2] 2 2).1
    (by decide) (by decide)

/-- C7: the §8 calibration scenario — users alice and bob, items S1/S2/S3
with runtimes 12e7, 6e7, 18e7 ticks and the stated play counts, and
`topSongs = 2` — yields alice top songs `[S1, S2]` with 7 minutes and bob
top songs `[S2, S3]` with 11 minutes. -/
theorem calibration_scenario :
    topSongsFor "alice" jellyItems 2 = some [S1, S2] ∧
    minutesFor "alice" jellyItems = some 7 ∧
    topSongsFor "bob" jellyItems 2 = some [S2, S3] ∧
    minutesFor "bob" jellyItems = some 11 := by
  refine ⟨by decide, ?_, by decide, ?_⟩
  · norm_num [minutesFor, foldO, jellyItems, S1, S2, S3, playCount, List.lookup]
  · simp +decide [minutesFor, foldO, jellyItems, S1, S2, S3, playCount, List.lookup]
    norm_num

/-- C8: the aggregation phase, taken as a transformer of the function's
local state, leaves the `item_data` and `users` snapshots unchanged, and
every user's three derived entries are functions of the snapshot and that
user's name alone — in particular they coincide with the entries of a run
performed for that user by themselves, so no accumulator is shared between
users. -/
theorem aggregation_frame_independent (nS nA : Nat) (s s' : AggState)
    (h : aggregatePhase nS nA s = some s') :
    s'.item_data = s.item_data ∧ s'.users = s.users ∧
    (∀ u ∈ s.users,
      s'.most_listened_songs.lookup u.name = topSongsFor u.name s.item_data nS ∧
      s'.most_listened_artists.lookup u.name = topArtistsFor u.name s.item_data nA ∧
      s'.minutes_listened.lookup u.name = minutesFor u.name s.item_data) ∧
    ∀ u ∈ s.users, ∃ r, computeRecap s.item_data [u] nS nA = some r ∧
      r.songs.lookup u.name = s'.most_listened_songs.lookup u.name ∧
      r.artists.lookup u.name = s'.most_listened_artists.lookup u.name ∧
      r.minutes.lookup u.name = s'.minutes_listened.lookup u.name := by
  unfold aggregatePhase at h
  split at h
  · exact Option.noConfusion h
  · rename_i songs hsongs
    split at h
    · exact Option.noConfusion h
    · rename_i artists hartists
      split at h
      · exact Option.noConfusion h
      · rename_i minutes hminutes
        injection h with h
        subst h
        refine ⟨rfl, rfl, ?_, ?_⟩
        · intro u hu
          exact ⟨(lookup_mapO_keyed (fun n => topSongsFor n s.item_data nS)
              hsongs).2.1 u hu,
            (lookup_mapO_keyed (fun n => topArtistsFor n s.item_data nA)
              hartists).2.1 u hu,
            (lookup_mapO_keyed (fun n => minutesFor n s.item_data)
              hminutes).2.1 u hu⟩
        · intro u hu
          have hts : (topSongsFor u.name s.item_data nS).isSome := by
            have hmem := mapO_forall_isSome hsongs u hu
            simpa using hmem
          obtain ⟨r, hr, h1, h2, h3⟩ := computeRecap_singleton s.item_data u nS nA
            (topSongsFor_isSome_playCounts hts)
          refine ⟨r, hr, ?_, ?_, ?_⟩
          · rw [h1, (lookup_mapO_keyed (fun n => topSongsFor n s.item_data nS)
              hsongs).2.1 u hu]
          · rw [h2, (lookup_mapO_keyed (fun n => topArtistsFor n s.item_data nA)
              hartists).2.1 u hu]
          · rw [h3, (lookup_mapO_keyed (fun n => minutesFor n s.item_data)
              hminutes).2.1 u hu]

/-- Witness for C8 on a small state: empty catalog, one user. -/
theorem aggregation_frame_independent_witness :
    (aggregatePhase 2 2 ⟨[], [⟨"u1", "maf"⟩], [], [], []⟩ =
      some ⟨[], [⟨"u1", "maf"⟩], [("maf", [])], [("maf", [])], [("maf", 0)]⟩) ∧
    (⟨[], [⟨"u1", "maf"⟩], [("maf", [])], [("maf", [])], [("maf", 0)]⟩
        : AggState).item_data =
      (⟨[], [⟨"u1", "maf"⟩], [], [], []⟩ : AggState).item_data ∧
    (⟨[], [⟨"u1", "maf"⟩], [("maf", [])], [("maf", [])], [("maf", 0)]⟩
        : AggState).users =
      (⟨[], [⟨"u1", "maf"⟩], [], [], []⟩ : AggState).users := by
  refine ⟨rfl, ?_, ?_⟩
  · exact (aggregation_frame_independent 2 2
      ⟨[], [⟨"u1", "maf"⟩], [], [], []⟩
      ⟨[], [⟨"u1", "maf"⟩], [("maf", [])], [("maf", [])], [("maf", 0)]⟩ rfl).1
  · exact (aggregation_frame_independent 2 2
      ⟨[], [⟨"u1", "maf"⟩], [], [], []⟩
      ⟨[], [⟨"u1", "maf"⟩], [("maf", [])], [("maf", [])], [("maf", 0)]⟩ rfl).2.1

/-- C9: any run whose user list contains no user named "maf" fails at the
debug print with a key lookup error — stage `debugKey`, which in `runRecap`
comes after aggregation has succeeded and before the image-fetch and render
stages — even when every statistics entry is present. -/
theorem run_requires_maf_user (items : List MediaItem) (users : List User)
    (nS nA : Nat)
    (hstats : ∀ u ∈ users, ∀ it ∈ items, (playCount u.name it).isSome)
    (hmaf : ∀ u ∈ users, ¬ u.name = "maf") :
    (∃ r, computeRecap items users nS nA = some r) ∧
    runRecap items users nS nA = Except.error RunError.debugKey := by
  obtain ⟨r, hr, hkeys, -, -⟩ := computeRecap_some items users nS nA hstats
  refine ⟨⟨r, hr⟩, ?_⟩
  apply runRecap_error_debug items users nS nA hr
  apply debugTopSongs_eq_none
  rw [hkeys]
  intro hc
  obtain ⟨u, hu, hname⟩ := List.mem_map.mp hc
  exact hmaf u hu hname

/-- Witness for C9: one user named alice, one item carrying her entry. -/
theorem run_requires_maf_user_witness :
    (∃ r, computeRecap [S1] [⟨"u1", "alice"⟩] 2 2 = some r) ∧
    runRecap [S1] [⟨"u1", "alice"⟩] 2 2 = Except.error RunError.debugKey :=
  run_requires_maf_user [S1] [⟨"u1", "alice"⟩] 2 2 (by decide) (by decide)

/-- C10: for every user with all statistics present, the accumulated artist
table has exactly one entry per distinct artist name occurring in the
catalog (in first-encountered order), whatever the play counts — zero-total
artists included — and the top-artist sequence has length exactly
`min(numTopArtists, number of distinct artist names)`. -/
theorem artist_table_contains_all_artists (u : String) (items : List MediaItem)
    (numTopArtists : Nat) (h : ∀ it ∈ items, (playCount u it).isSome) :
    ∃ m, accumArtists u items = some m ∧
      (∀ a : String, a ∈ m.map Prod.fst ↔ ∃ it ∈ items, a ∈ it.artists) ∧
      (∀ a ∈ m.map Prod.fst,
        m.lookup a =
          some ((items.map (fun it => it.artists.count a * songKey u it)).sum)) ∧
      topArtistsFor u items numTopArtists =
        some ((sortByDesc Prod.snd m).take numTopArtists) ∧
      ((sortByDesc Prod.snd m).take numTopArtists).length =
        min numTopArtists
          (firstOccurrences (items.flatMap (fun it => it.artists))).length := by
  obtain ⟨m, hm, hlook, hkeys⟩ := accumArtists_spec u items h
  have hmem : ∀ a : String, a ∈ m.map Prod.fst ↔ ∃ it ∈ items, a ∈ it.artists := by
    intro a
    rw [hkeys, mem_firstOccurrences]
    simp [List.mem_flatMap]
  refine ⟨m, hm, hmem, ?_, topArtistsFor_eq u items numTopArtists hm, ?_⟩
  · intro a ha
    rw [hlook a, if_pos ((hmem a).mp ha)]
  · rw [List.length_take, length_sortByDesc]
    congr 1
    rw [← hkeys, List.length_map]

/-- Witness for C10 at the duplicate-artist item, `numTopArtists = 5`. -/
theorem artist_table_contains_all_artists_witness :
    (∀ it ∈ [dupArtistItem], (playCount "u" it).isSome) ∧
    (∃ m, accumArtists "u" [dupArtistItem] = some m ∧
      (∀ a : String, a ∈ m.map Prod.fst ↔ ∃ it ∈ [dupArtistItem], a ∈ it.artists) ∧
      (∀ a ∈ m.map Prod.fst,
        m.lookup a =
          some (([dupArtistItem].map
            (fun it => it.artists.count a * songKey "u" it)).sum)) ∧
      topArtistsFor "u" [dupArtistItem] 5 =
        some ((sortByDesc Prod.snd m).take 5) ∧
      ((sortByDesc Prod.snd m).take 5).length =
        min 5 (firstOccurrences
          ([dupArtistItem].flatMap (fun it => it.artists))).length) :=
  ⟨by decide, artist_table_contains_all_artists "u" [dupArtistItem] 5 (by decide)⟩

end JellyfinRecap
